import Mathlib

/-!
Shallow embedding of the session-correlation subsystem of the Flask app in
`app.py`.  The mutable module globals `image_context`, `session_map` and
`pending_session_id` become an explicit `ServerState`; each HTTP handler body
becomes a state-passing function.  Python dicts are modelled as association
lists with unique keys that keep insertion order: updating an existing key
keeps its position (as CPython dicts do), inserting a new key appends it,
`pop` removes it.
-/

/-- A Python dict lookup: `d.get(k)`, first (and, with unique keys, only)
entry whose key is `k`. -/
def dlookup {α β : Type} [DecidableEq α] : List (α × β) → α → Option β
  | [], _ => none
  | (k0, v0) :: rest, k => if k0 = k then some v0 else dlookup rest k

/-- A Python dict assignment `d[k] = v`: replace the value in place if the
key exists (keeping its position, as CPython does), else append the new
entry at the end. -/
def dinsert {α β : Type} [DecidableEq α] : List (α × β) → α → β → List (α × β)
  | [], k, v => [(k, v)]
  | (k0, v0) :: rest, k, v =>
      if k0 = k then (k0, v) :: rest else (k0, v0) :: dinsert rest k v

/-- A Python dict `d.pop(k, None)`: drop the entry for `k` (dict keys are
unique, so dropping every entry with that key coincides with dropping the
one entry). -/
def dpop {α β : Type} [DecidableEq α] (l : List (α × β)) (k : α) : List (α × β) :=
  l.filter (fun p => p.1 ≠ k)

/-- A scalar JSON value as it appears in the request payload, with Python
truthiness.  (The `messages` field is carried separately in `Request`.) -/
inductive PVal : Type
  | vNull : PVal
  | vStr : String → PVal
  | vInt : Int → PVal
  | vBool : Bool → PVal
deriving DecidableEq

/-- Python truthiness of a payload value (`if data[field]:`). -/
def PVal.truthy : PVal → Bool
  | .vNull => false
  | .vStr s => decide (s ≠ "")
  | .vInt n => decide (n ≠ 0)
  | .vBool b => b

/-- Python truthiness of an optional string (`if pending_session_id:`,
`if session_id:`): present and non-empty. -/
def optTruthy : Option String → Bool
  | none => false
  | some s => decide (s ≠ "")

/-- The ordered candidate field names probed for the external identifier
(`possible_user_id_fields` in `chat_completions`). -/
def possible_user_id_fields : List String :=
  ["user_id", "userId", "user", "id", "conversation_id", "conversationId"]

/-- The probing loop of `chat_completions`: walk the candidate names in
order and return the value of the first field that is present with a truthy
value (`if field in data and data[field]: ...; break`). -/
def probe_fields : List String → List (String × PVal) → Option PVal
  | [], _ => none
  | f :: rest, data =>
      match dlookup data f with
      | some v => if v.truthy then some v else probe_fields rest data
      | none => probe_fields rest data

/-- `elevenlabs_user_id` after the probing loop: the first truthy candidate
if one exists, else the (possibly falsy) initial `data.get("user_id")`. -/
def extract_user_id (data : List (String × PVal)) : Option PVal :=
  match probe_fields possible_user_id_fields data with
  | some v => some v
  | none => dlookup data "user_id"

/-- The external identifier as the rest of the handler sees it: the guard
`if elevenlabs_user_id:` discards a falsy or absent value. -/
def effective_user_id (data : List (String × PVal)) : Option PVal :=
  match extract_user_id data with
  | some v => if v.truthy then some v else none
  | none => none

/-- Whether a payload field is present with a truthy value — the loop guard
`if field in data and data[field]:`. -/
def truthyAt (data : List (String × PVal)) (f : String) : Bool :=
  match dlookup data f with
  | some v => v.truthy
  | none => false

/-- The three module-level correlation tables of `app.py`:
`image_context : session_id -> filename`, `session_map : user_id ->
session_id`, and the single slot `pending_session_id`. -/
structure ServerState : Type where
  image_context : List (String × String)
  session_map : List (PVal × String)
  pending_session_id : Option String
deriving DecidableEq

/-- The state at process start: all three tables empty. -/
def initState : ServerState :=
  { image_context := [], session_map := [], pending_session_id := none }

/-- The session-linking block of `chat_completions` (the branch on
`elevenlabs_user_id`, its `session_map` / `pending_session_id` cases and
the one-entry `image_context` fallback).  Returns the updated state and
`session_id`. -/
def session_linking (st : ServerState) (eid : Option PVal) :
    ServerState × Option String :=
  match eid with
  | some e =>
      match dlookup st.session_map e with
      | some t => (st, some t)
      | none =>
          if optTruthy st.pending_session_id then
            let t := st.pending_session_id.getD ""
            ({ st with session_map := dinsert st.session_map e t,
                       pending_session_id := none }, some t)
          else if st.image_context.length = 1 then
            let t := (st.image_context.map Prod.fst).headD ""
            ({ st with session_map := dinsert st.session_map e t }, some t)
          else (st, none)
  | none =>
      if optTruthy st.pending_session_id && st.image_context.length = 1 then
        (st, st.pending_session_id)
      else (st, none)

/-- The late fallback of `chat_completions` (`if not session_id and
image_context:`): take the newest `image_context` key and, when a user id
is present, also record the mapping. -/
def late_fallback (st : ServerState) (eid : Option PVal)
    (sid : Option String) : ServerState × Option String :=
  if !optTruthy sid && !st.image_context.isEmpty then
    let newest := (st.image_context.map Prod.fst).getLastD ""
    let st' :=
      match eid with
      | some e => { st with session_map := dinsert st.session_map e newest }
      | none => st
    (st', some newest)
  else (st, sid)

/-- One part of a structured OpenAI-style message content list. -/
inductive ContentPart : Type
  | text : String → ContentPart
  | imageUrl : String → String → ContentPart
deriving DecidableEq

/-- Message content: either a plain string or a list of structured parts. -/
inductive Content : Type
  | str : String → Content
  | parts : List ContentPart → Content
deriving DecidableEq

/-- A chat message; `role` is optional because the code reads it with
`messages[0].get("role")`. -/
structure Message : Type where
  role : Option String
  content : Content
deriving DecidableEq

/-- The contextual note of the synthetic image message in
`chat_completions`. -/
def image_note : String :=
  "(System note: The user has shared an image. Please analyze this image in the context of our conversation.)"

/-- The synthetic `image_message` built in `chat_completions`: role `user`,
one text part with the note and one image part with the public URL and
detail `auto`. -/
def image_message (base_url fname : String) : Message :=
  { role := some "user",
    content := Content.parts
      [ContentPart.text image_note,
       ContentPart.imageUrl (base_url ++ "/serve_image/" ++ fname) "auto"] }

/-- The insertion logic of `chat_completions`: after a leading system
message, else at the head, appended when the list is empty. -/
def splice (messages : List Message) (msg : Message) : List Message :=
  match messages with
  | [] => [msg]
  | m0 :: rest =>
      if m0.role = some "system" then m0 :: msg :: rest
      else msg :: m0 :: rest

/-- The image-injection block of `chat_completions`: when a session id
resolved, look its image up, splice the synthetic message and pop the
`image_context` entry; otherwise leave the messages untouched. -/
def injection (st : ServerState) (sid : Option String) (base_url : String)
    (messages : List Message) : ServerState × List Message :=
  if optTruthy sid then
    let s := sid.getD ""
    match dlookup st.image_context s with
    | some fname =>
        if fname ≠ "" then
          ({ st with image_context := dpop st.image_context s },
           splice messages (image_message base_url fname))
        else (st, messages)
    | none => (st, messages)
  else (st, messages)

/-- The stateful core of a `POST /v1/chat/completions` request after
validation: identifier probing, session linking, late fallback, image
injection.  Returns the final state, the (possibly augmented) message list
and the resolved session id. -/
def chat_completions_core (st : ServerState) (data : List (String × PVal))
    (messages : List Message) (base_url : String) :
    ServerState × List Message × Option String :=
  let eid := effective_user_id data
  let (st1, sid1) := session_linking st eid
  let (st2, sid2) := late_fallback st1 eid sid1
  let (st3, messages') := injection st2 sid2 base_url messages
  (st3, messages', sid2)

/-- Outcome of the `chat_completions` handler: either delegate the final
message list to the LLM service, or an error response with its HTTP code. -/
inductive HandlerResult : Type
  | ok : List Message → HandlerResult
  | clientError : Nat → HandlerResult
  | serverError : Nat → HandlerResult
deriving DecidableEq

/-- A completion request as the handler sees it: content-type and body
validity, the scalar payload fields, the `messages` field and the host
URL. -/
structure Request : Type where
  is_json : Bool
  has_body : Bool
  messages_is_list : Bool
  fields : List (String × PVal)
  messages : List Message
  base_url : String
deriving DecidableEq

/-- Server-side LLM configuration read from the environment: the provider
API key and whether `create_llm_service` accepts the provider. -/
structure Config : Type where
  api_key : String
  provider_ok : Bool
deriving DecidableEq

/-- The full `chat_completions` handler in source order: JSON / body /
messages validation, identifier probing and session linking, then the LLM
configuration checks (which return 500 with the linking mutations already
applied), then late fallback and injection. -/
def chat_completions_handler (st : ServerState) (req : Request)
    (cfg : Config) : ServerState × HandlerResult :=
  if req.is_json = false then (st, .clientError 400)
  else if req.has_body = false then (st, .clientError 400)
  else if req.messages_is_list = false || req.messages.isEmpty then
    (st, .clientError 400)
  else
    let eid := effective_user_id req.fields
    let (st1, sid1) := session_linking st eid
    if cfg.api_key = "" then (st1, .serverError 500)
    else if cfg.provider_ok = false then (st1, .serverError 500)
    else
      let (st2, sid2) := late_fallback st1 eid sid1
      let (st3, messages') := injection st2 sid2 req.base_url req.messages
      (st3, .ok messages')

/-- The `upload_image_get_url` handler restricted to its state effect: a
missing (falsy) `session_id` is rejected with 400 and changes nothing;
otherwise the freshly saved filename is recorded under the session id.
Returns the new state and whether the upload was accepted. -/
def upload_image_get_url (st : ServerState) (session_id fname : String) :
    ServerState × Bool :=
  if session_id = "" then (st, false)
  else ({ st with image_context := dinsert st.image_context session_id fname },
        true)

/-- The state effect of `get_elevenlabs_signed_url`: store the freshly
minted session id in the pending slot, discarding any unclaimed
predecessor. -/
def issue_session (st : ServerState) (token : String) : ServerState :=
  { st with pending_session_id := some token }

/-- One state-mutating request against the server. -/
inductive Op : Type
  | issue : String → Op
  | upload : String → String → Op
  | complete : Request → Config → Op

/-- Apply one request to the server state. -/
def applyOp (st : ServerState) : Op → ServerState
  | .issue tok => issue_session st tok
  | .upload sid f => (upload_image_get_url st sid f).1
  | .complete req cfg => (chat_completions_handler st req cfg).1

/-- Apply a sequence of requests in order. -/
def applyOps (st : ServerState) (ops : List Op) : ServerState :=
  ops.foldl applyOp st

/-- The resolution part of the pipeline on its own (session linking followed
by the late fallback): the state after resolution and the resolved session
id. -/
def resolve_session (st : ServerState) (data : List (String × PVal)) :
    ServerState × Option String :=
  let eid := effective_user_id data
  let (st1, sid1) := session_linking st eid
  late_fallback st1 eid sid1

/-- The image filename the injection block would act on: present exactly
when a truthy session id resolved and its `image_context` entry holds a
truthy filename. -/
def pending_image (st : ServerState) (sid : Option String) : Option String :=
  if optTruthy sid then
    match dlookup st.image_context (sid.getD "") with
    | some f => if f ≠ "" then some f else none
    | none => none
  else none

/-- Fixture: one stored image for token `T`, `T` also pending. -/
def stImg : ServerState :=
  { image_context := [("T", "img.png")], session_map := [],
    pending_session_id := some "T" }

/-- Fixture: external id `E` already bound to `T`; unrelated image and
pending token present. -/
def stBound : ServerState :=
  { image_context := [("T2", "g.png")],
    session_map := [(PVal.vStr "E", "T")],
    pending_session_id := some "T3" }

/-- Fixture: empty tables with pending token `T`. -/
def stPend : ServerState :=
  { image_context := [], session_map := [], pending_session_id := some "T" }

/-- Fixture: exactly one stored image, nothing pending. -/
def stSingle : ServerState :=
  { image_context := [("T", "f.png")], session_map := [],
    pending_session_id := none }

/-- Fixture: one stored image for `TX` while `T` is pending. -/
def stPendSingle : ServerState :=
  { image_context := [("TX", "fx.png")], session_map := [],
    pending_session_id := some "T" }

/-- Fixture: two stored images, nothing pending, nothing bound. -/
def stTwo : ServerState :=
  { image_context := [("T1", "f1.png"), ("T2", "f2.png")], session_map := [],
    pending_session_id := none }

/-- Fixture payload carrying the external id `E` in `user_id`. -/
def dataE : List (String × PVal) := [("user_id", PVal.vStr "E")]

/-- Fixture payload with no identifier candidate field. -/
def dataNone : List (String × PVal) := [("foo", PVal.vStr "x")]

/-- Fixture message list with a leading system message. -/
def msgsSys : List Message :=
  [{ role := some "system", content := Content.str "s" },
   { role := some "user", content := Content.str "hi" }]

/-- Fixture completion request without an identifier field. -/
def reqNoId : Request :=
  { is_json := true, has_body := true, messages_is_list := true,
    fields := dataNone, messages := msgsSys, base_url := "hb" }

/-- Fixture completion request carrying the external id `E2`. -/
def reqSample : Request :=
  { is_json := true, has_body := true, messages_is_list := true,
    fields := [("user_id", PVal.vStr "E2")],
    messages := [{ role := some "user", content := Content.str "hi" }],
    base_url := "hb" }

/-- Fixture LLM configuration with a usable provider key. -/
def cfgSample : Config := { api_key := "k", provider_ok := true }

/-- Fixture request sequence: a credential issue, an upload and a full
completion. -/
def opsSample : List Op :=
  [Op.issue "T4", Op.upload "T5" "h.png", Op.complete reqSample cfgSample]

/-! ### Association-list (Python dict) lemmas -/

theorem dlookup_dinsert_self {α β : Type} [DecidableEq α] (l : List (α × β))
    (k : α) (v : β) : dlookup (dinsert l k v) k = some v := by
  induction l with
  | nil => simp [dinsert, dlookup]
  | cons p rest ih =>
      obtain ⟨k0, v0⟩ := p
      by_cases h : k0 = k
      · simp [dinsert, dlookup, h]
      · simp [dinsert, dlookup, h, ih]

theorem dlookup_dinsert_ne {α β : Type} [DecidableEq α] (l : List (α × β))
    (k k' : α) (v : β) (h : k' ≠ k) :
    dlookup (dinsert l k v) k' = dlookup l k' := by
  induction l with
  | nil => simp [dinsert, dlookup, Ne.symm h]
  | cons p rest ih =>
      obtain ⟨k0, v0⟩ := p
      by_cases hk : k0 = k
      · subst hk
        simp [dinsert, dlookup, Ne.symm h]
      · simp [dinsert, dlookup, hk, ih]

theorem dlookup_dpop_self {α β : Type} [DecidableEq α] (l : List (α × β))
    (k : α) : dlookup (dpop l k) k = none := by
  induction l with
  | nil => rfl
  | cons p rest ih =>
      obtain ⟨k0, v0⟩ := p
      by_cases h : k0 = k
      · simpa [dpop, List.filter_cons, h] using ih
      · simpa [dpop, List.filter_cons, h, dlookup] using ih

theorem dlookup_dpop_ne {α β : Type} [DecidableEq α] (l : List (α × β))
    (k k' : α) (h : k' ≠ k) :
    dlookup (dpop l k) k' = dlookup l k' := by
  induction l with
  | nil => rfl
  | cons p rest ih =>
      obtain ⟨k0, v0⟩ := p
      by_cases hk : k0 = k
      · subst hk
        simpa [dpop, List.filter_cons, dlookup, Ne.symm h] using ih
      · by_cases hk' : k0 = k'
        · subst hk'
          simp [dpop, List.filter_cons, hk, dlookup]
        · simpa [dpop, List.filter_cons, hk, dlookup, hk'] using ih

theorem keys_dinsert {α β : Type} [DecidableEq α] (l : List (α × β))
    (k : α) (v : β) :
    (dinsert l k v).map Prod.fst =
      if k ∈ l.map Prod.fst then l.map Prod.fst
      else l.map Prod.fst ++ [k] := by
  induction l with
  | nil => simp [dinsert]
  | cons p rest ih =>
      obtain ⟨k0, v0⟩ := p
      by_cases h : k0 = k
      · subst h
        simp [dinsert]
      · by_cases hm : k ∈ rest.map Prod.fst
        · simp [dinsert, h, ih, hm, Ne.symm h]
        · simp [dinsert, h, ih, hm, Ne.symm h]

theorem keys_dpop {α β : Type} [DecidableEq α] (l : List (α × β)) (k : α) :
    (dpop l k).map Prod.fst = (l.map Prod.fst).filter (fun x => x ≠ k) := by
  induction l with
  | nil => rfl
  | cons p rest ih =>
      obtain ⟨k0, v0⟩ := p
      by_cases h : k0 = k
      · simpa [dpop, List.filter_cons, h, ne_eq, decide_not] using ih
      · simpa [dpop, List.filter_cons, h, ne_eq, decide_not] using ih

theorem nodup_keys_dinsert {α β : Type} [DecidableEq α] (l : List (α × β))
    (k : α) (v : β) (h : (l.map Prod.fst).Nodup) :
    ((dinsert l k v).map Prod.fst).Nodup := by
  rw [keys_dinsert]
  by_cases hm : k ∈ l.map Prod.fst
  · simpa [hm] using h
  · simp only [hm, if_false]
    refine h.append (List.nodup_singleton k) ?_
    intro a ha hak
    rw [List.mem_singleton] at hak
    subst hak
    exact hm ha

theorem nodup_keys_dpop {α β : Type} [DecidableEq α] (l : List (α × β))
    (k : α) (h : (l.map Prod.fst).Nodup) :
    ((dpop l k).map Prod.fst).Nodup := by
  rw [keys_dpop]
  exact h.filter _

/-! ### Frame lemmas for the pipeline stages -/

theorem session_linking_image_context (st : ServerState) (eid : Option PVal) :
    (session_linking st eid).1.image_context = st.image_context := by
  cases eid with
  | none =>
      simp only [session_linking]
      split <;> rfl
  | some e =>
      simp only [session_linking]
      cases h : dlookup st.session_map e with
      | some t => simp [h]
      | none => simp only [h]; split_ifs <;> rfl

theorem late_fallback_image_context (st : ServerState) (eid : Option PVal)
    (sid : Option String) :
    (late_fallback st eid sid).1.image_context = st.image_context := by
  unfold late_fallback
  split
  · cases eid <;> rfl
  · rfl

theorem injection_session_map (st : ServerState) (sid : Option String)
    (b : String) (msgs : List Message) :
    (injection st sid b msgs).1.session_map = st.session_map := by
  unfold injection
  split
  · cases h : dlookup st.image_context (sid.getD "") with
    | some f => simp only [h]; split_ifs <;> rfl
    | none => simp [h]
  · rfl

theorem injection_pending (st : ServerState) (sid : Option String)
    (b : String) (msgs : List Message) :
    (injection st sid b msgs).1.pending_session_id = st.pending_session_id := by
  unfold injection
  split
  · cases h : dlookup st.image_context (sid.getD "") with
    | some f => simp only [h]; split_ifs <;> rfl
    | none => simp [h]
  · rfl

theorem late_fallback_truthy (st : ServerState) (eid : Option PVal)
    (sid : Option String) (h : optTruthy sid = true) :
    late_fallback st eid sid = (st, sid) := by
  unfold late_fallback
  simp [h]

theorem late_fallback_pending (st : ServerState) (eid : Option PVal)
    (sid : Option String) :
    (late_fallback st eid sid).1.pending_session_id = st.pending_session_id := by
  unfold late_fallback
  split
  · cases eid <;> rfl
  · rfl

theorem session_linking_bound (st : ServerState) (e : PVal) (t : String)
    (hb : dlookup st.session_map e = some t) :
    session_linking st (some e) = (st, some t) := by
  simp [session_linking, hb]

theorem injection_of_pending_image_none (st : ServerState)
    (sid : Option String) (b : String) (msgs : List Message)
    (h : pending_image st sid = none) :
    injection st sid b msgs = (st, msgs) := by
  unfold pending_image at h
  unfold injection
  by_cases hs : optTruthy sid = true
  · simp only [hs, if_true] at h ⊢
    cases hl : dlookup st.image_context (sid.getD "") with
    | none => simp [hl]
    | some f =>
        simp only [hl] at h ⊢
        by_cases hf : f = ""
        · simp [hf]
        · simp [hf] at h
  · rw [Bool.not_eq_true] at hs
    simp [hs]

theorem injection_of_pending_image_some (st : ServerState)
    (sid : Option String) (b : String) (msgs : List Message) (f : String)
    (h : pending_image st sid = some f) :
    injection st sid b msgs =
      ({ st with image_context := dpop st.image_context (sid.getD "") },
       splice msgs (image_message b f)) := by
  unfold pending_image at h
  unfold injection
  by_cases hs : optTruthy sid = true
  · simp only [hs, if_true] at h ⊢
    cases hl : dlookup st.image_context (sid.getD "") with
    | none => simp [hl] at h
    | some g =>
        simp only [hl] at h ⊢
        by_cases hg : g = ""
        · simp [hg] at h
        · simp only [hg, if_true, Option.some.injEq, ne_eq,
            not_false_iff] at h ⊢
          simp [hg, h]
  · rw [Bool.not_eq_true] at hs
    simp [hs] at h

theorem chat_completions_core_eq (st : ServerState)
    (data : List (String × PVal)) (messages : List Message) (b : String) :
    chat_completions_core st data messages b =
      ((injection (resolve_session st data).1 (resolve_session st data).2
          b messages).1,
       (injection (resolve_session st data).1 (resolve_session st data).2
          b messages).2,
       (resolve_session st data).2) := by
  unfold chat_completions_core resolve_session
  cases h1 : session_linking st (effective_user_id data) with
  | mk st1 sid1 =>
      cases h2 : late_fallback st1 (effective_user_id data) sid1 with
      | mk st2 sid2 =>
          cases h3 : injection st2 sid2 b messages with
          | mk st3 m3 => simp

theorem resolve_session_image_context (st : ServerState)
    (data : List (String × PVal)) :
    (resolve_session st data).1.image_context = st.image_context := by
  unfold resolve_session
  rw [late_fallback_image_context]
  exact session_linking_image_context st (effective_user_id data)

theorem session_linking_map_mono (st : ServerState) (eid : Option PVal)
    (e : PVal) (t : String) (hb : dlookup st.session_map e = some t) :
    dlookup (session_linking st eid).1.session_map e = some t := by
  cases eid with
  | none =>
      simp only [session_linking]
      split <;> simpa
  | some e' =>
      by_cases he : e' = e
      · subst he
        rw [session_linking_bound st e' t hb]
        exact hb
      · simp only [session_linking]
        cases h : dlookup st.session_map e' with
        | some t' => simpa using hb
        | none =>
            simp only [h]
            split_ifs <;>
              simp [dlookup_dinsert_ne _ _ _ _ (Ne.symm he), hb]

theorem late_fallback_map_mono (st : ServerState) (eid : Option PVal)
    (sid : Option String) (e : PVal) (t : String)
    (hb : dlookup st.session_map e = some t)
    (hcase : eid = some e → optTruthy sid = true) :
    dlookup (late_fallback st eid sid).1.session_map e = some t := by
  by_cases hs : optTruthy sid = true
  · rw [late_fallback_truthy st eid sid hs]
    exact hb
  · rw [Bool.not_eq_true] at hs
    unfold late_fallback
    rw [hs]
    by_cases hemp : st.image_context.isEmpty
    · simp [hemp, hb]
    · cases eid with
      | none => simp [hemp, hb]
      | some e' =>
          by_cases he : e' = e
          · subst he
            rw [hcase rfl] at hs
            cases hs
          · simp [hemp, dlookup_dinsert_ne _ _ _ _ (Ne.symm he), hb]

theorem resolve_session_bound (st : ServerState) (data : List (String × PVal))
    (e : PVal) (t : String) (heff : effective_user_id data = some e)
    (hb : dlookup st.session_map e = some t) (ht : t ≠ "") :
    resolve_session st data = (st, some t) := by
  unfold resolve_session
  simp only [heff, session_linking_bound st e t hb]
  exact late_fallback_truthy st (some e) (some t) (by simp [optTruthy, ht])

theorem resolve_session_map_mono (st : ServerState)
    (data : List (String × PVal)) (e : PVal) (t : String)
    (hb : dlookup st.session_map e = some t) (ht : t ≠ "") :
    dlookup (resolve_session st data).1.session_map e = some t := by
  by_cases heid : effective_user_id data = some e
  · rw [resolve_session_bound st data e t heid hb ht]
    exact hb
  · unfold resolve_session
    exact late_fallback_map_mono _ _ _ e t
      (session_linking_map_mono st _ e t hb)
      (fun hh => absurd hh heid)

theorem chat_completions_core_map_mono (st : ServerState)
    (data : List (String × PVal)) (messages : List Message) (b : String)
    (e : PVal) (t : String)
    (hb : dlookup st.session_map e = some t) (ht : t ≠ "") :
    dlookup (chat_completions_core st data messages b).1.session_map e =
      some t := by
  rw [chat_completions_core_eq]
  simp only []
  rw [injection_session_map]
  exact resolve_session_map_mono st data e t hb ht

theorem chat_completions_core_resolves_bound (st : ServerState)
    (data : List (String × PVal)) (messages : List Message) (b : String)
    (e : PVal) (t : String) (heff : effective_user_id data = some e)
    (hb : dlookup st.session_map e = some t) (ht : t ≠ "") :
    (chat_completions_core st data messages b).2.2 = some t := by
  rw [chat_completions_core_eq]
  simp only []
  rw [resolve_session_bound st data e t heff hb ht]

theorem chat_completions_handler_state (st : ServerState) (req : Request)
    (cfg : Config) :
    (chat_completions_handler st req cfg).1 = st ∨
    (chat_completions_handler st req cfg).1 =
      (session_linking st (effective_user_id req.fields)).1 ∨
    (chat_completions_handler st req cfg).1 =
      (chat_completions_core st req.fields req.messages req.base_url).1 := by
  unfold chat_completions_handler
  split_ifs with h1 h2 h3 h4 h5
  · exact Or.inl rfl
  · exact Or.inl rfl
  · exact Or.inl rfl
  · exact Or.inr (Or.inl rfl)
  · exact Or.inr (Or.inl rfl)
  · refine Or.inr (Or.inr ?_)
    unfold chat_completions_core
    rfl

theorem applyOp_map_mono (st : ServerState) (op : Op) (e : PVal) (t : String)
    (hb : dlookup st.session_map e = some t) (ht : t ≠ "") :
    dlookup (applyOp st op).session_map e = some t := by
  cases op with
  | issue tok => simpa [applyOp, issue_session] using hb
  | upload sid f =>
      simp only [applyOp, upload_image_get_url]
      split_ifs <;> simpa using hb
  | complete req cfg =>
      simp only [applyOp]
      rcases chat_completions_handler_state st req cfg with h | h | h
      · rw [h]; exact hb
      · rw [h]; exact session_linking_map_mono st _ e t hb
      · rw [h]; exact chat_completions_core_map_mono st _ _ _ e t hb ht

theorem applyOps_map_mono (st : ServerState) (ops : List Op) (e : PVal)
    (t : String) (hb : dlookup st.session_map e = some t) (ht : t ≠ "") :
    dlookup (applyOps st ops).session_map e = some t := by
  induction ops generalizing st with
  | nil => simpa [applyOps] using hb
  | cons op rest ih =>
      simp only [applyOps, List.foldl_cons] at ih ⊢
      exact ih (applyOp st op) (applyOp_map_mono st op e t hb ht)

theorem probe_fields_first_truthy (fs : List String)
    (data : List (String × PVal)) (i : Nat) (h : i < fs.length) (v : PVal)
    (hv : dlookup data (fs.getD i "") = some v) (ht : v.truthy = true)
    (he : ∀ j, j < i → truthyAt data (fs.getD j "") = false) :
    probe_fields fs data = some v := by
  induction fs generalizing i with
  | nil => exact absurd h (Nat.not_lt_zero i)
  | cons f rest ih =>
      cases i with
      | zero =>
          rw [List.getD_cons_zero] at hv
          unfold probe_fields
          rw [hv]
          simp [ht]
      | succ n =>
          have h0 : truthyAt data f = false := by
            have := he 0 (Nat.succ_pos n)
            rwa [List.getD_cons_zero] at this
          rw [List.getD_cons_succ] at hv
          have hrec := ih n (Nat.lt_of_succ_lt_succ h) hv
            (fun j hj => by
              have := he (j + 1) (Nat.succ_lt_succ hj)
              rwa [List.getD_cons_succ] at this)
          unfold probe_fields
          unfold truthyAt at h0
          cases hf : dlookup data f with
          | none => simpa [hf] using hrec
          | some w =>
              rw [hf] at h0
              have h0w : w.truthy = false := by simpa using h0
              simp [hf, h0w, hrec]

theorem resolve_session_step2_pending (st : ServerState)
    (data : List (String × PVal)) (e : PVal) (t : String)
    (heff : effective_user_id data = some e)
    (hun : dlookup st.session_map e = none)
    (hp : st.pending_session_id = some t) (ht : t ≠ "") :
    resolve_session st data =
      ({ st with session_map := dinsert st.session_map e t,
                 pending_session_id := none }, some t) := by
  have hlink : session_linking st (some e) =
      ({ st with session_map := dinsert st.session_map e t,
                 pending_session_id := none }, some t) := by
    simp [session_linking, hun, hp, optTruthy, ht]
  unfold resolve_session
  simp only [heff, hlink]
  exact late_fallback_truthy _ (some e) (some t) (by simp [optTruthy, ht])

theorem resolve_session_step2_single (st : ServerState)
    (data : List (String × PVal)) (e : PVal) (t f : String)
    (heff : effective_user_id data = some e)
    (hun : dlookup st.session_map e = none)
    (hp : optTruthy st.pending_session_id = false)
    (hctx : st.image_context = [(t, f)]) (ht : t ≠ "") :
    resolve_session st data =
      ({ st with session_map := dinsert st.session_map e t }, some t) := by
  have hlink : session_linking st (some e) =
      ({ st with session_map := dinsert st.session_map e t }, some t) := by
    simp [session_linking, hun, hp, hctx]
  unfold resolve_session
  simp only [heff, hlink]
  exact late_fallback_truthy _ (some e) (some t) (by simp [optTruthy, ht])

theorem resolve_session_absent_pending_single (st : ServerState)
    (data : List (String × PVal)) (heff : effective_user_id data = none)
    (hp : optTruthy st.pending_session_id = true)
    (hlen : st.image_context.length = 1) :
    resolve_session st data = (st, st.pending_session_id) := by
  have hlink : session_linking st none = (st, st.pending_session_id) := by
    simp [session_linking, hp, hlen]
  unfold resolve_session
  simp only [heff, hlink]
  exact late_fallback_truthy st none st.pending_session_id hp

theorem resolve_session_absent_other (st : ServerState)
    (data : List (String × PVal)) (heff : effective_user_id data = none)
    (hno : ¬(optTruthy st.pending_session_id = true ∧
        st.image_context.length = 1)) :
    resolve_session st data =
      (if st.image_context.isEmpty then (st, none)
       else (st, some ((st.image_context.map Prod.fst).getLastD ""))) := by
  have hcond : (optTruthy st.pending_session_id &&
      decide (st.image_context.length = 1)) = false := by
    by_cases h1 : optTruthy st.pending_session_id = true
    · by_cases h2 : st.image_context.length = 1
      · exact absurd ⟨h1, h2⟩ hno
      · simp [h2]
    · rw [Bool.not_eq_true] at h1
      simp [h1]
  have hlink : session_linking st none = (st, none) := by
    simp [session_linking, hcond]
  unfold resolve_session
  simp only [heff, hlink]
  unfold late_fallback
  by_cases hemp : st.image_context.isEmpty
  · simp [hemp, optTruthy]
  · simp [hemp, optTruthy]

theorem resolve_session_late_fallback_eid (st : ServerState)
    (data : List (String × PVal)) (e : PVal)
    (heff : effective_user_id data = some e)
    (hun : dlookup st.session_map e = none)
    (hpend : optTruthy st.pending_session_id = false)
    (hlen : ¬st.image_context.length = 1)
    (hne : st.image_context.isEmpty = false) :
    resolve_session st data =
      ({ st with session_map :=
           dinsert st.session_map e ((st.image_context.map Prod.fst).getLastD "") },
       some ((st.image_context.map Prod.fst).getLastD "")) := by
  have hlink : session_linking st (some e) = (st, none) := by
    simp [session_linking, hun, hpend, hlen]
  unfold resolve_session
  simp only [heff, hlink]
  unfold late_fallback
  simp [optTruthy, hne]

theorem chat_completions_handler_ok (st : ServerState) (req : Request)
    (cfg : Config) (hjson : req.is_json = true) (hbody : req.has_body = true)
    (hlist : req.messages_is_list = true) (hmsg : req.messages ≠ [])
    (hkey : cfg.api_key ≠ "") (hprov : cfg.provider_ok = true) :
    chat_completions_handler st req cfg =
      ((chat_completions_core st req.fields req.messages req.base_url).1,
       HandlerResult.ok
         (chat_completions_core st req.fields req.messages req.base_url).2.1) := by
  have hie : req.messages.isEmpty = false := by
    cases h : req.messages with
    | nil => exact absurd h hmsg
    | cons a l => rfl
  unfold chat_completions_handler chat_completions_core
  simp [hjson, hbody, hlist, hie, hkey, hprov]

theorem chat_completions_core_no_image (st : ServerState)
    (data : List (String × PVal)) (messages : List Message) (b : String)
    (hno : pending_image (resolve_session st data).1
        (resolve_session st data).2 = none) :
    (chat_completions_core st data messages b).2.1 = messages := by
  rw [chat_completions_core_eq]
  simp only []
  rw [injection_of_pending_image_none _ _ _ _ hno]

theorem dlookup_mem_keys {α β : Type} [DecidableEq α] (l : List (α × β))
    (k : α) (v : β) (h : dlookup l k = some v) : k ∈ l.map Prod.fst := by
  induction l with
  | nil => cases h
  | cons p rest ih =>
      obtain ⟨k0, v0⟩ := p
      by_cases hk : k0 = k
      · subst hk
        simp
      · simp only [dlookup, hk, if_false] at h
        simp [ih h]

theorem injection_image_context_cases (st : ServerState) (sid : Option String)
    (b : String) (msgs : List Message) :
    (injection st sid b msgs).1.image_context = st.image_context ∨
    (injection st sid b msgs).1.image_context =
      dpop st.image_context (sid.getD "") := by
  cases hpi : pending_image st sid with
  | none =>
      rw [injection_of_pending_image_none _ _ _ _ hpi]
      exact Or.inl rfl
  | some f =>
      rw [injection_of_pending_image_some _ _ _ _ f hpi]
      exact Or.inr rfl

theorem chat_completions_core_image_context_cases (st : ServerState)
    (data : List (String × PVal)) (messages : List Message) (b : String) :
    (chat_completions_core st data messages b).1.image_context =
      st.image_context ∨
    (chat_completions_core st data messages b).1.image_context =
      dpop st.image_context ((resolve_session st data).2.getD "") := by
  rw [chat_completions_core_eq]
  simp only []
  rcases injection_image_context_cases (resolve_session st data).1
      (resolve_session st data).2 b messages with h | h
  · rw [h, resolve_session_image_context]
    exact Or.inl rfl
  · rw [h, resolve_session_image_context]
    exact Or.inr rfl

theorem applyOp_image_context_nodup (st : ServerState) (op : Op)
    (h : (st.image_context.map Prod.fst).Nodup) :
    (((applyOp st op).image_context.map Prod.fst)).Nodup := by
  cases op with
  | issue tok => simpa [applyOp, issue_session] using h
  | upload sid f =>
      simp only [applyOp, upload_image_get_url]
      split_ifs
      · simpa using h
      · simpa using nodup_keys_dinsert st.image_context sid f h
  | complete req cfg =>
      simp only [applyOp]
      rcases chat_completions_handler_state st req cfg with hs | hs | hs
      · rw [hs]; exact h
      · rw [hs, session_linking_image_context]; exact h
      · rw [hs]
        rcases chat_completions_core_image_context_cases st req.fields
            req.messages req.base_url with hc | hc
        · rw [hc]; exact h
        · rw [hc]; exact nodup_keys_dpop _ _ h

/-- C1: at-most-once injection.  When a completion request resolves to a
session token `t` whose `image_context` entry holds filename `f`, the
handler splices exactly one synthetic image message into the list and
deletes the entry, so a second completion request that again resolves to
`t` injects nothing and returns its message list unchanged. -/
theorem claim_image_injected_at_most_once (st : ServerState)
    (data data2 : List (String × PVal)) (messages messages2 : List Message)
    (b b2 : String) (t f : String)
    (hres : (chat_completions_core st data messages b).2.2 = some t)
    (ht : t ≠ "") (hf : dlookup st.image_context t = some f) (hfne : f ≠ "") :
    (chat_completions_core st data messages b).2.1 =
      splice messages (image_message b f) ∧
    dlookup (chat_completions_core st data messages b).1.image_context t =
      none ∧
    ((chat_completions_core (chat_completions_core st data messages b).1
        data2 messages2 b2).2.2 = some t →
      (chat_completions_core (chat_completions_core st data messages b).1
        data2 messages2 b2).2.1 = messages2) := by
  have hsid : (resolve_session st data).2 = some t := by
    rw [chat_completions_core_eq] at hres
    simpa using hres
  have hpi : pending_image (resolve_session st data).1
      (resolve_session st data).2 = some f := by
    unfold pending_image
    rw [hsid]
    simp [optTruthy, ht, resolve_session_image_context, hf, hfne]
  have hinj := injection_of_pending_image_some (resolve_session st data).1
      (resolve_session st data).2 b messages f hpi
  have hmsg1 : (chat_completions_core st data messages b).2.1 =
      splice messages (image_message b f) := by
    rw [chat_completions_core_eq]
    simp only []
    rw [hinj]
  have hdel : dlookup
      (chat_completions_core st data messages b).1.image_context t = none := by
    rw [chat_completions_core_eq]
    simp only []
    rw [hinj]
    simp [hsid, resolve_session_image_context, dlookup_dpop_self]
  refine ⟨hmsg1, hdel, ?_⟩
  intro hres2
  have hsid2 : (resolve_session
      (chat_completions_core st data messages b).1 data2).2 = some t := by
    rw [chat_completions_core_eq] at hres2
    simpa using hres2
  have hpi2 : pending_image
      (resolve_session (chat_completions_core st data messages b).1 data2).1
      (resolve_session (chat_completions_core st data messages b).1 data2).2 =
      none := by
    unfold pending_image
    rw [hsid2]
    simp [optTruthy, ht, resolve_session_image_context, hdel]
  exact chat_completions_core_no_image _ data2 messages2 b2 hpi2

/-- C2: bind-once.  Once an external identifier `e` is bound to session
token `t` in `session_map`, no later request (credential issue, upload or
completion, successful or failing) rebinds or removes the entry, and every
later completion request whose payload yields `e` resolves to `t`. -/
theorem claim_bind_once (st : ServerState) (e : PVal) (t : String)
    (ops : List Op) (hb : dlookup st.session_map e = some t) (ht : t ≠ "") :
    dlookup (applyOps st ops).session_map e = some t ∧
    ∀ data messages b, effective_user_id data = some e →
      (chat_completions_core (applyOps st ops) data messages b).2.2 =
        some t := by
  have hmap := applyOps_map_mono st ops e t hb ht
  exact ⟨hmap, fun data messages b heff =>
    chat_completions_core_resolves_bound _ data messages b e t heff hmap ht⟩

/-- C3: resolution step 2.  For a completion request whose payload yields
an unbound external id `e`: if the pending slot holds a token `t`, the
handler binds `e` to `t`, clears the pending slot and resolves to `t`;
otherwise, if the pending slot is falsy and `image_context` has exactly one
entry with key `t`, the handler binds `e` to `t` and resolves to `t`. -/
theorem claim_resolve_step_two (st : ServerState)
    (data : List (String × PVal)) (messages : List Message) (b : String)
    (e : PVal) (heff : effective_user_id data = some e)
    (hun : dlookup st.session_map e = none) :
    (∀ t, st.pending_session_id = some t → t ≠ "" →
      (chat_completions_core st data messages b).2.2 = some t ∧
      dlookup (chat_completions_core st data messages b).1.session_map e =
        some t ∧
      (chat_completions_core st data messages b).1.pending_session_id =
        none) ∧
    (optTruthy st.pending_session_id = false →
      ∀ t f, st.image_context = [(t, f)] → t ≠ "" →
        (chat_completions_core st data messages b).2.2 = some t ∧
        dlookup (chat_completions_core st data messages b).1.session_map e =
          some t) := by
  constructor
  · intro t hp ht
    have hres := resolve_session_step2_pending st data e t heff hun hp ht
    refine ⟨?_, ?_, ?_⟩
    · rw [chat_completions_core_eq]
      simp [hres]
    · rw [chat_completions_core_eq]
      simp only []
      rw [injection_session_map, hres]
      exact dlookup_dinsert_self st.session_map e t
    · rw [chat_completions_core_eq]
      simp only []
      rw [injection_pending, hres]
  · intro hp t f hctx ht
    have hres := resolve_session_step2_single st data e t f heff hun hp hctx ht
    refine ⟨?_, ?_⟩
    · rw [chat_completions_core_eq]
      simp [hres]
    · rw [chat_completions_core_eq]
      simp only []
      rw [injection_session_map, hres]
      exact dlookup_dinsert_self st.session_map e t

/-- C4: resolution with an absent external id.  If the pending slot holds a
token and `image_context` has exactly one entry, the pending token is
resolved; otherwise, if `image_context` is non-empty, the token of its most
recently inserted entry is resolved; otherwise resolution yields none and
the message list is left untouched. -/
theorem claim_resolve_absent_external_id (st : ServerState)
    (data : List (String × PVal)) (messages : List Message) (b : String)
    (heff : effective_user_id data = none) :
    (optTruthy st.pending_session_id = true → st.image_context.length = 1 →
      (chat_completions_core st data messages b).2.2 =
        st.pending_session_id) ∧
    (¬(optTruthy st.pending_session_id = true ∧
        st.image_context.length = 1) →
      st.image_context ≠ [] →
      (chat_completions_core st data messages b).2.2 =
        some ((st.image_context.map Prod.fst).getLastD "")) ∧
    (st.image_context = [] →
      (chat_completions_core st data messages b).2.2 = none ∧
      (chat_completions_core st data messages b).2.1 = messages) := by
  refine ⟨?_, ?_, ?_⟩
  · intro hp hlen
    have hres := resolve_session_absent_pending_single st data heff hp hlen
    rw [chat_completions_core_eq]
    simp [hres]
  · intro hno hne
    have hemp : st.image_context.isEmpty = false := by
      cases hc : st.image_context with
      | nil => exact absurd hc hne
      | cons a l => rfl
    have hres := resolve_session_absent_other st data heff hno
    rw [chat_completions_core_eq]
    simp [hres, hemp]
  · intro hctx
    have hno : ¬(optTruthy st.pending_session_id = true ∧
        st.image_context.length = 1) := by
      rintro ⟨-, hl⟩
      rw [hctx] at hl
      simp at hl
    have hres := resolve_session_absent_other st data heff hno
    have hemp : st.image_context.isEmpty = true := by
      rw [hctx]
      rfl
    have hpi : pending_image (resolve_session st data).1
        (resolve_session st data).2 = none := by
      unfold pending_image
      rw [hres]
      simp [hemp, optTruthy]
    constructor
    · rw [chat_completions_core_eq]
      simp [hres, hemp]
    · exact chat_completions_core_no_image st data messages b hpi

/-- C5: splice placement.  The synthetic message has role `user` and a
content of one textual note plus the image URL; it goes right after a
leading system message, else at the head, and an empty input list becomes
the one-element list; all other messages keep their relative order. -/
theorem claim_splice_placement (messages : List Message) (b f : String) :
    (image_message b f).role = some "user" ∧
    (image_message b f).content = Content.parts
      [ContentPart.text image_note,
       ContentPart.imageUrl (b ++ "/serve_image/" ++ f) "auto"] ∧
    (messages = [] →
      splice messages (image_message b f) = [image_message b f]) ∧
    ∀ m0 rest, messages = m0 :: rest →
      (m0.role = some "system" →
        splice messages (image_message b f) =
          m0 :: image_message b f :: rest) ∧
      (m0.role ≠ some "system" →
        splice messages (image_message b f) =
          image_message b f :: m0 :: rest) := by
  refine ⟨rfl, rfl, ?_, ?_⟩
  · intro h
    subst h
    rfl
  · intro m0 rest h
    subst h
    constructor
    · intro hr
      simp [splice, hr]
    · intro hr
      simp [splice, hr]

/-- C6: `image_context` is last-write-wins with at most one live entry per
token: after two sequential uploads for token `t` only the second filename
is stored, `t` has exactly one entry, and every request preserves
key-uniqueness of `image_context`. -/
theorem claim_image_context_last_write_wins (st : ServerState)
    (t f1 f2 : String) (ht : t ≠ "") :
    dlookup ((upload_image_get_url (upload_image_get_url st t f1).1
        t f2).1).image_context t = some f2 ∧
    ((st.image_context.map Prod.fst).Nodup →
      (((upload_image_get_url (upload_image_get_url st t f1).1
          t f2).1).image_context.map Prod.fst).count t = 1) ∧
    ∀ op : Op, (st.image_context.map Prod.fst).Nodup →
      ((applyOp st op).image_context.map Prod.fst).Nodup := by
  have hup : (upload_image_get_url (upload_image_get_url st t f1).1
      t f2).1.image_context = dinsert (dinsert st.image_context t f1) t f2 := by
    simp [upload_image_get_url, ht]
  refine ⟨?_, ?_, fun op h => applyOp_image_context_nodup st op h⟩
  · rw [hup]
    exact dlookup_dinsert_self _ _ _
  · intro h
    rw [hup]
    have hnd : ((dinsert (dinsert st.image_context t f1) t f2).map
        Prod.fst).Nodup :=
      nodup_keys_dinsert _ _ _ (nodup_keys_dinsert _ _ _ h)
    have hmem : t ∈ (dinsert (dinsert st.image_context t f1) t f2).map
        Prod.fst :=
      dlookup_mem_keys _ _ _ (dlookup_dinsert_self _ t f2)
    exact List.count_eq_one_of_mem hnd hmem

/-- C8: resolution failure is never an error.  For a valid request with a
configured provider the handler always answers with the LLM delegation
result, and when no image is pending for the resolved session (or nothing
resolves at all) the delegated message list is the original one. -/
theorem claim_resolution_failure_not_error (st : ServerState) (req : Request)
    (cfg : Config) (hjson : req.is_json = true) (hbody : req.has_body = true)
    (hlist : req.messages_is_list = true) (hmsg : req.messages ≠ [])
    (hkey : cfg.api_key ≠ "") (hprov : cfg.provider_ok = true) :
    (∃ ms, (chat_completions_handler st req cfg).2 = HandlerResult.ok ms) ∧
    (pending_image (resolve_session st req.fields).1
        (resolve_session st req.fields).2 = none →
      (chat_completions_handler st req cfg).2 =
        HandlerResult.ok req.messages) := by
  have hok := chat_completions_handler_ok st req cfg hjson hbody hlist hmsg
    hkey hprov
  constructor
  · exact ⟨_, by rw [hok]⟩
  · intro hno
    rw [hok]
    simp only []
    rw [chat_completions_core_no_image st req.fields req.messages
      req.base_url hno]

/-- C9: external-id extraction probes the fixed ordered candidate list and
uses the value of the first field present with a truthy value, ignoring
later candidates (the probe is a pure function of the payload). -/
theorem claim_user_id_probe (data : List (String × PVal)) (i : Nat)
    (h : i < possible_user_id_fields.length) (v : PVal)
    (hv : dlookup data (possible_user_id_fields.getD i "") = some v)
    (ht : v.truthy = true)
    (he : ∀ j, j < i →
      truthyAt data (possible_user_id_fields.getD j "") = false) :
    extract_user_id data = some v ∧ effective_user_id data = some v := by
  have hp := probe_fields_first_truthy possible_user_id_fields data i h v hv
    ht he
  constructor
  · unfold extract_user_id
    rw [hp]
  · unfold effective_user_id extract_user_id
    rw [hp]
    simp [ht]

/-- C10: when resolution reaches the last fallback with an external id `e`
present (unbound, pending slot falsy, several stored images), the handler
resolves to the newest `image_context` token, binds `e` to it, and the
binding is permanent: any later completion carrying `e` resolves to it. -/
theorem claim_late_fallback_binds_permanently (st : ServerState)
    (data : List (String × PVal)) (messages : List Message) (b : String)
    (e : PVal) (heff : effective_user_id data = some e)
    (hun : dlookup st.session_map e = none)
    (hpend : optTruthy st.pending_session_id = false)
    (hlen : st.image_context.length ≠ 1)
    (hne : st.image_context ≠ [])
    (ht : (st.image_context.map Prod.fst).getLastD "" ≠ "") :
    (chat_completions_core st data messages b).2.2 =
      some ((st.image_context.map Prod.fst).getLastD "") ∧
    dlookup (chat_completions_core st data messages b).1.session_map e =
      some ((st.image_context.map Prod.fst).getLastD "") ∧
    ∀ ops data2 messages2 b2, effective_user_id data2 = some e →
      (chat_completions_core
          (applyOps (chat_completions_core st data messages b).1 ops)
          data2 messages2 b2).2.2 =
        some ((st.image_context.map Prod.fst).getLastD "") := by
  have hemp : st.image_context.isEmpty = false := by
    cases hc : st.image_context with
    | nil => exact absurd hc hne
    | cons a l => rfl
  have hres := resolve_session_late_fallback_eid st data e heff hun hpend
    hlen hemp
  have h1 : (chat_completions_core st data messages b).2.2 =
      some ((st.image_context.map Prod.fst).getLastD "") := by
    rw [chat_completions_core_eq]
    simp [hres]
  have h2 : dlookup (chat_completions_core st data messages b).1.session_map
      e = some ((st.image_context.map Prod.fst).getLastD "") := by
    rw [chat_completions_core_eq]
    simp only []
    rw [injection_session_map, hres]
    exact dlookup_dinsert_self _ _ _
  refine ⟨h1, h2, ?_⟩
  intro ops data2 messages2 b2 heff2
  have hmap := applyOps_map_mono _ ops e _ h2 ht
  exact chat_completions_core_resolves_bound _ data2 messages2 b2 e _ heff2
    hmap ht

/-- Witness for C1 at a concrete state: upload for `T`, completion with id
`E`, then a second completion with the same id. -/
theorem claim_image_injected_at_most_once_witness :
    (chat_completions_core stImg dataE msgsSys "hb").2.1 =
      splice msgsSys (image_message "hb" "img.png") ∧
    dlookup (chat_completions_core stImg dataE msgsSys "hb").1.image_context
      "T" = none ∧
    (chat_completions_core (chat_completions_core stImg dataE msgsSys "hb").1
        dataE msgsSys "hb").2.1 = msgsSys := by
  have h := claim_image_injected_at_most_once stImg dataE dataE msgsSys
    msgsSys "hb" "hb" "T" "img.png" (by decide) (by decide) (by decide)
    (by decide)
  exact ⟨h.1, h.2.1, h.2.2 (by decide)⟩

/-- Witness for C2 at a concrete state and request sequence. -/
theorem claim_bind_once_witness :
    dlookup (applyOps stBound opsSample).session_map (PVal.vStr "E") =
      some "T" ∧
    (chat_completions_core (applyOps stBound opsSample) dataE [] "hb").2.2 =
      some "T" := by
  have h := claim_bind_once stBound (PVal.vStr "E") "T" opsSample (by decide)
    (by decide)
  exact ⟨h.1, h.2 dataE [] "hb" (by decide)⟩

/-- Witness for C3: the pending-token case and the single-image case. -/
theorem claim_resolve_step_two_witness :
    ((chat_completions_core stPend dataE [] "hb").2.2 = some "T" ∧
     dlookup (chat_completions_core stPend dataE [] "hb").1.session_map
       (PVal.vStr "E") = some "T" ∧
     (chat_completions_core stPend dataE [] "hb").1.pending_session_id =
       none) ∧
    ((chat_completions_core stSingle dataE [] "hb").2.2 = some "T" ∧
     dlookup (chat_completions_core stSingle dataE [] "hb").1.session_map
       (PVal.vStr "E") = some "T") := by
  constructor
  · exact (claim_resolve_step_two stPend dataE [] "hb" (PVal.vStr "E")
      (by decide) (by decide)).1 "T" (by decide) (by decide)
  · exact (claim_resolve_step_two stSingle dataE [] "hb" (PVal.vStr "E")
      (by decide) (by decide)).2 (by decide) "T" "f.png" (by decide)
      (by decide)

/-- Witness for C4: the pending-plus-single-image case and the empty case. -/
theorem claim_resolve_absent_external_id_witness :
    (chat_completions_core stPendSingle dataNone [] "hb").2.2 = some "T" ∧
    (chat_completions_core stPend dataNone [] "hb").2.2 = none ∧
    (chat_completions_core stPend dataNone [] "hb").2.1 = [] := by
  have h1 := (claim_resolve_absent_external_id stPendSingle dataNone [] "hb"
    (by decide)).1 (by decide) (by decide)
  have h3 := (claim_resolve_absent_external_id stPend dataNone [] "hb"
    (by decide)).2.2 (by decide)
  exact ⟨by rw [h1]; rfl, h3.1, h3.2⟩

/-- Witness for C5: the empty list and the leading-system-message list. -/
theorem claim_splice_placement_witness :
    splice [] (image_message "hb" "i") = [image_message "hb" "i"] ∧
    splice msgsSys (image_message "hb" "img.png") =
      { role := some "system", content := Content.str "s" } ::
        image_message "hb" "img.png" ::
        [{ role := some "user", content := Content.str "hi" }] := by
  constructor
  · exact (claim_splice_placement [] "hb" "i").2.2.1 rfl
  · exact ((claim_splice_placement msgsSys "hb" "img.png").2.2.2
      { role := some "system", content := Content.str "s" }
      [{ role := some "user", content := Content.str "hi" }] rfl).1 rfl

/-- Witness for C6: two uploads for `T9` on a concrete state, and one
key-uniqueness preservation step. -/
theorem claim_image_context_last_write_wins_witness :
    dlookup ((upload_image_get_url
        (upload_image_get_url stBound "T9" "a.png").1
        "T9" "b.png").1).image_context "T9" = some "b.png" ∧
    (((upload_image_get_url (upload_image_get_url stBound "T9" "a.png").1
        "T9" "b.png").1).image_context.map Prod.fst).count "T9" = 1 ∧
    ((applyOp stBound (Op.upload "T9" "a.png")).image_context.map
        Prod.fst).Nodup := by
  have h := claim_image_context_last_write_wins stBound "T9" "a.png" "b.png"
    (by decide)
  exact ⟨h.1, h.2.1 (by decide), h.2.2 (Op.upload "T9" "a.png") (by decide)⟩

/-- Witness for C8: a valid identifierless request against the empty state
is answered with the untouched message list. -/
theorem claim_resolution_failure_not_error_witness :
    (∃ ms, (chat_completions_handler initState reqNoId cfgSample).2 =
      HandlerResult.ok ms) ∧
    (chat_completions_handler initState reqNoId cfgSample).2 =
      HandlerResult.ok reqNoId.messages := by
  have h := claim_resolution_failure_not_error initState reqNoId cfgSample
    (by decide) (by decide) (by decide) (by decide) (by decide) (by decide)
  exact ⟨h.1, h.2 (by decide)⟩

/-- Witness for C9: `user_id` present but null, `userId` absent, `user`
truthy — the `user` value wins. -/
theorem claim_user_id_probe_witness :
    extract_user_id [("user_id", PVal.vNull), ("user", PVal.vStr "u42")] =
      some (PVal.vStr "u42") ∧
    effective_user_id [("user_id", PVal.vNull), ("user", PVal.vStr "u42")] =
      some (PVal.vStr "u42") :=
  claim_user_id_probe [("user_id", PVal.vNull), ("user", PVal.vStr "u42")] 2
    (by decide) (PVal.vStr "u42") (by decide) (by decide) (by decide)

/-- Witness for C10: two stored images, unbound id `E`, nothing pending —
the newest token `T2` is chosen and stays bound. -/
theorem claim_late_fallback_binds_permanently_witness :
    (chat_completions_core stTwo dataE [] "hb").2.2 = some "T2" ∧
    dlookup (chat_completions_core stTwo dataE [] "hb").1.session_map
      (PVal.vStr "E") = some "T2" ∧
    (chat_completions_core
        (applyOps (chat_completions_core stTwo dataE [] "hb").1 [])
        dataE [] "hb").2.2 = some "T2" := by
  have h := claim_late_fallback_binds_permanently stTwo dataE [] "hb"
    (PVal.vStr "E") (by decide) (by decide) (by decide) (by decide)
    (by decide) (by decide)
  exact ⟨h.1, h.2.1, h.2.2 [] dataE [] "hb" (by decide)⟩
